import Mathlib

/-!
Verification of the SmartSaveImage ComfyUI plugin (text-processing and
path-derivation logic) against its natural-language specification.

The Python sources are shallowly embedded: pure text functions become Lean
functions on `String` / `List Char`; code that touches the filesystem or
other host state (`os.path.realpath`, `os.path.exists`, `datetime.now()`,
PIL image writes) takes that state as an explicit argument (a resolution
function, an existence predicate, a clock reading, an outcome of type
`Except`).  Strings are treated at the ASCII level: Python's `\w` and `\s`
character classes are modelled by their ASCII parts, which is faithful for
the path/file names this plugin manipulates.
-/

namespace SmartSave

/-- Python `\s` (ASCII part): the whitespace characters recognised by
`re.sub(r"\s+", ...)` and `str.strip()`. -/
def pyWS (c : Char) : Bool :=
  c = ' ' || c = '\t' || c = '\n' || c = '\r' || c = '\x0b' || c = '\x0c'

/-- The Windows-illegal filename characters of
`PathManager.illegal_chars = r'[<>:"/\\|?*]'`. -/
def illegalWinChar (c : Char) : Bool :=
  c = '<' || c = '>' || c = ':' || c = '"' || c = '/' || c = '\\' ||
  c = '|' || c = '?' || c = '*'

/-- Python `\w` (ASCII part): letters, digits and underscore. -/
def wordChar (c : Char) : Bool :=
  c.isAlphanum || c = '_'

/-- A character kept by `re.sub(r'[^\w\-_.]', '_', name)`. -/
def keepFileChar (c : Char) : Bool :=
  wordChar c || c = '-' || c = '.'

/-- Replace every maximal run of characters satisfying `p` by the single
character `r` (the effect of `re.sub(p+, r, s)` for a single-char class). -/
def collapseRuns (p : Char → Bool) (r : Char) : List Char → List Char
  | [] => []
  | a :: rest =>
    if p a then
      match rest with
      | [] => [r]
      | b :: _ => if p b then collapseRuns p r rest else r :: collapseRuns p r rest
    else a :: collapseRuns p r rest

/-- Python `str.lstrip` with an explicit character predicate. -/
def lstripP (p : Char → Bool) (l : List Char) : List Char :=
  l.dropWhile p

/-- Python `str.rstrip` with an explicit character predicate. -/
def rstripP (p : Char → Bool) (l : List Char) : List Char :=
  (l.reverse.dropWhile p).reverse

/-- Python `str.strip` with an explicit character predicate. -/
def stripP (p : Char → Bool) (l : List Char) : List Char :=
  rstripP p (lstripP p l)

/-- The cleaning pipeline of `PathManager.sanitize_filename` before the final
`"untitled"` fallback: illegal chars to `_`, whitespace runs to `_`,
non-`[\w\-_.]` chars to `_`, underscore runs merged, `strip('_.')`, and the
length cut `name[:max_length].rstrip('_.')`. -/
def sanitizeFilenameCore (l : List Char) (maxLength : Nat) : List Char :=
  let s1 := l.map (fun c => if illegalWinChar c then '_' else c)
  let s2 := collapseRuns pyWS '_' s1
  let s3 := s2.map (fun c => if keepFileChar c then c else '_')
  let s4 := collapseRuns (fun c => c = '_') '_' s3
  let s5 := stripP (fun c => c = '_' || c = '.') s4
  if s5.length > maxLength then
    rstripP (fun c => c = '_' || c = '.') (s5.take maxLength)
  else
    s5

/-- Embedding of `PathManager.sanitize_filename` (src/src/SmartSaveImage/core/path_utils.py,
lines 26-48).  `max_length` is a `Nat`: the Python parameter is an `int` with
default 100 and every use site passes a non-negative count. -/
def sanitize_filename (name : String) (maxLength : Nat := 100) : String :=
  if name = "" then "untitled"
  else
    let core := sanitizeFilenameCore name.toList maxLength
    if core = [] then "untitled" else String.mk core

/-- Python `str.replace` on character lists (replace all leftmost,
non-overlapping occurrences), with a structural fuel so that the kernel can
evaluate it; `fuel ≥ s.length` is always enough for a non-empty pattern. -/
def pyReplaceFuel (pat rep : List Char) : Nat → List Char → List Char
  | 0, s => s
  | _ + 1, [] => []
  | fuel + 1, c :: rest =>
    if pat ≠ [] && pat.isPrefixOf (c :: rest) then
      rep ++ pyReplaceFuel pat rep fuel ((c :: rest).drop pat.length)
    else c :: pyReplaceFuel pat rep fuel rest

/-- Python `s.replace(pat, rep)` for a non-empty pattern. -/
def pyReplace (s pat rep : String) : String :=
  String.mk (pyReplaceFuel pat.toList rep.toList s.toList.length s.toList)

/-- Python `str.split(sep)` on character lists for a non-empty separator,
with structural fuel; `fuel ≥ s.length + 1` is always enough. -/
def pySplitFuel (sep : List Char) : Nat → List Char → List (List Char)
  | 0, s => [s]
  | _ + 1, [] => [[]]
  | fuel + 1, c :: rest =>
    if sep ≠ [] && sep.isPrefixOf (c :: rest) then
      [] :: pySplitFuel sep fuel ((c :: rest).drop sep.length)
    else
      match pySplitFuel sep fuel rest with
      | [] => [[c]]
      | h :: t => (c :: h) :: t

/-- Python `s.split(sep)` for a non-empty separator. -/
def pySplit (s sep : String) : List String :=
  (pySplitFuel sep.toList (s.toList.length + 1) s.toList).map String.mk

/-- Zero-pad to two digits: Python `f"{n:02d}"` for the values used here. -/
def pad2 (n : Nat) : String :=
  if n < 10 then "0" ++ toString n else toString n

/-- Zero-pad to three digits: Python `f"{n:03d}"`. -/
def pad3 (n : Nat) : String :=
  if n < 10 then "00" ++ toString n
  else if n < 100 then "0" ++ toString n
  else toString n

/-- Zero-pad to four digits: Python `f"{n:04d}"`. -/
def pad4 (n : Nat) : String :=
  if n < 10 then "000" ++ toString n
  else if n < 100 then "00" ++ toString n
  else if n < 1000 then "0" ++ toString n
  else toString n

/-- A reading of the wall clock (`datetime.now()`).  The fields are the ones a
Python `datetime` exposes; only the first six are ever read by this code, and
`micro` witnesses that the functions ignore sub-second state. -/
structure PyDateTime where
  year : Nat
  month : Nat
  day : Nat
  hour : Nat
  minute : Nat
  second : Nat
  micro : Nat
  deriving DecidableEq, Repr

/-- The marker table built (identically) by `PathManager.__init__` and by
`SmartSaveImage.format_template` / `SmartMetaCollector.collect`, in Python
dict insertion order: yyyy, yy, MM, dd, hh, mm, ss. -/
def dateMarkerTable (d : PyDateTime) : List (String × String) :=
  [("yyyy", pad4 d.year), ("yy", pad2 (d.year % 100)), ("MM", pad2 d.month),
   ("dd", pad2 d.day), ("hh", pad2 d.hour), ("mm", pad2 d.minute),
   ("ss", pad2 d.second)]

/-- Sequential `str.replace` of each date marker, in table order. -/
def applyDateMarkers (fmt : String) (d : PyDateTime) : String :=
  (dateMarkerTable d).foldl (fun acc kv => pyReplace acc kv.1 kv.2) fmt

/-- Python `pat in s` for the non-empty literal patterns used here. -/
def containsTok (s pat : String) : Bool :=
  (pySplit s pat).length != 1

/-- Embedding of `PathManager.format_date` (path_utils.py, lines 50-63), with the
`datetime.now()` call made an explicit `now` argument. -/
def format_date (dateFormat : String) (includeTime : Bool) (now : PyDateTime) :
    String :=
  let fmt :=
    if includeTime &&
        !(containsTok dateFormat "hh" || containsTok dateFormat "mm" ||
          containsTok dateFormat "ss") then
      dateFormat ++ "_hh-mm-ss"
    else dateFormat
  applyDateMarkers fmt now

/-- The character class of `re.sub(r"[:*?\"<>|]", "_", s)` in
`SmartSaveImage.sanitize` / `sanitize_segment` (src/__init__.py): note it has
no slash, unlike `PathManager.illegal_chars`. -/
def illegalSegChar (c : Char) : Bool :=
  c = ':' || c = '*' || c = '?' || c = '"' || c = '<' || c = '>' || c = '|'

/-- Embedding of `SmartSaveImage.sanitize_segment` (src/__init__.py, lines 60-65). -/
def sanitize_segment (s : String) : String :=
  let s1 := s.toList.map (fun c => if illegalSegChar c then '_' else c)
  let s2 := collapseRuns pyWS '_' s1
  let s3 := s2.map (fun c => if c.isAlphanum || c = '_' || c = '-' then c else '_')
  String.mk (stripP (fun c => c = '_') s3)

/-- Python `str.strip()` (no argument: strip whitespace). -/
def pyStripWS (s : String) : String :=
  String.mk (stripP pyWS s.toList)

/-- POSIX `os.path.basename`: the part after the last `/`. -/
def pyBasename (s : String) : String :=
  match (pySplit s "/").getLast? with
  | some b => b
  | none => s

/-- The stem of Python `os.path.splitext`: cut at the last dot, except that
dots leading the name (as in `.bashrc`) never start an extension. -/
def splitextStem (b : String) : String :=
  let l := b.toList
  let lead := l.takeWhile (fun c => c = '.')
  let rest := l.dropWhile (fun c => c = '.')
  if rest.contains '.' then
    String.mk (lead ++ ((rest.reverse.dropWhile (fun c => c ≠ '.')).reverse).dropLast)
  else b

/-- Digit-string to number, for `pyParseInt`. -/
def parseDigits (ds : List Char) : Option Nat :=
  if ds ≠ [] && ds.all Char.isDigit then
    some (ds.foldl (fun a c => a * 10 + (c.toNat - 48)) 0)
  else none

/-- Python `int(s)` on an optionally signed decimal string (the arguments fed
to it in `format_template` are template fragments); `none` models the
`ValueError` that the code catches.  Python's exotic digit-group underscores
(`int("1_0")`) are not modelled. -/
def pyParseInt (s : String) : Option Int :=
  match stripP pyWS s.toList with
  | '+' :: ds => (parseDigits ds).map Int.ofNat
  | '-' :: ds => (parseDigits ds).map (fun n => -(n : Int))
  | ds => (parseDigits ds).map Int.ofNat

/-- Python `s[:n]` for an `int` slice bound (negative counts from the end). -/
def pySliceTo (s : String) (n : Int) : String :=
  if n ≥ 0 then String.mk (s.toList.take n.toNat)
  else String.mk (s.toList.take ((s.length : Int) + n).toNat)

/-- The `%...%` tokens the regex `r"(%[^%]+%)"` finds, described on the pieces
of `template.split("%")`: the head of the remaining piece list is a candidate
token body; it forms a token when it is non-empty and a further `%` (another
piece) follows, and scanning resumes after the closing `%`. -/
def tokensFromPieces : List String → List String
  | [] => []
  | [_] => []
  | p :: q :: rest =>
    if p = "" then tokensFromPieces (q :: rest)
    else ("%" ++ p ++ "%") :: tokensFromPieces rest

/-- The matches of `re.findall(r"(%[^%]+%)", template)`: leftmost, non-overlapping. -/
def findTokens (template : String) : List String :=
  match pySplit template "%" with
  | [] => []
  | _ :: pieces => tokensFromPieces pieces

/-- A value stored under `"seed"` in the metadata dictionary: an `int` or a
non-numeric (string) value.  Python `float` seeds are not modelled; the repo
always stores ints (or `None`, modelled by `Option.none` outside). -/
inductive SeedVal where
  | intV (n : Int)
  | strV (s : String)
  deriving DecidableEq, Repr

/-- The metadata dictionary consumed by `SmartSaveImage.format_template`.
`none` models a missing key (or a `None` value where the code treats the two
alike); `process` always populates all of these keys. -/
structure TemplateMeta where
  seed : Option SeedVal
  width : Option Int
  height : Option Int
  prompt : Option String
  negative_prompt : Option String
  model : Option String
  deriving DecidableEq, Repr

/-- One iteration of the token loop of `SmartSaveImage.format_template`
(src/__init__.py, lines 168-225): strip the `%` signs, split on `:`, branch
on the key, and `str.replace` the token (all occurrences) in `res`. -/
def applyTokenCode (md : TemplateMeta) (now : PyDateTime) (res : String)
    (seg : String) : String :=
  let inner := String.mk (stripP (fun c => c = '%') seg.toList)
  let parts := pySplit inner ":"
  let key := parts.headD ""
  if key = "seed" then
    let rep :=
      match md.seed with
      | some (.intV n) => if n < 0 then "rand" else toString n
      | some (.strV _) => "seed"
      | none => "seed"
    pyReplace res seg (sanitize_segment rep)
  else if key = "width" then
    pyReplace res seg
      (sanitize_segment (match md.width with | some n => toString n | none => ""))
  else if key = "height" then
    pyReplace res seg
      (sanitize_segment (match md.height with | some n => toString n | none => ""))
  else if key = "pprompt" then
    let raw := md.prompt.getD "untitled"
    let txt := pyStripWS (pyReplace raw "\n" " ")
    let txt :=
      match parts[1]? with
      | some a => match pyParseInt a with | some n => pySliceTo txt n | none => txt
      | none => txt
    pyReplace res seg (sanitize_segment txt)
  else if key = "nprompt" then
    let raw := md.negative_prompt.getD ""
    let txt := pyStripWS (pyReplace raw "\n" " ")
    let txt :=
      match parts[1]? with
      | some a => match pyParseInt a with | some n => pySliceTo txt n | none => txt
      | none => txt
    pyReplace res seg (sanitize_segment txt)
  else if key = "model" then
    let m := md.model.getD "model"
    let m := splitextStem (pyBasename m)
    let m :=
      match parts[1]? with
      | some a => match pyParseInt a with | some n => pySliceTo m n | none => m
      | none => m
    pyReplace res seg (sanitize_segment m)
  else if key = "date" then
    let fmt := (parts[1]?).getD "yyyyMMddhhmmss"
    pyReplace res seg (applyDateMarkers fmt now)
  else res

/-- Embedding of `SmartSaveImage.format_template` (src/__init__.py, lines 165-229), with
`datetime.now()` an explicit argument. -/
def format_template (template : String) (md : TemplateMeta) (now : PyDateTime) :
    String :=
  let toks := findTokens template
  let result := toks.foldl (applyTokenCode md now) template
  let segs := (pySplit result "/").filter (fun p => p != "" && pyStripWS p != "")
  let cleaned := segs.map sanitize_segment
  if cleaned = [] then "ComfyUI" else String.intercalate "/" cleaned

/-- Modelled from the claim's words: the value a recognised token key (with
optional argument) is substituted with — before sanitization.  `seed` yields
`"rand"` for a negative integer and `"seed"` for a non-numeric (or missing)
value; `pprompt`, `nprompt` and `model` are truncated to the integer `arg`
when one is given; `model` is reduced to its basename without extension;
`date` replaces the `yyyy/yy/MM/dd/hh/mm/ss` markers in the `arg`.  `none`
for a key that is not one of the seven. -/
def specRawValue (md : TemplateMeta) (now : PyDateTime) (key : String)
    (arg : Option String) : Option String :=
  let truncated := fun (txt : String) =>
    match arg with
    | some a => match pyParseInt a with | some n => pySliceTo txt n | none => txt
    | none => txt
  if key = "seed" then
    some (match md.seed with
      | some (.intV n) => if n < 0 then "rand" else toString n
      | some (.strV _) => "seed"
      | none => "seed")
  else if key = "width" then
    some (match md.width with | some n => toString n | none => "")
  else if key = "height" then
    some (match md.height with | some n => toString n | none => "")
  else if key = "pprompt" then
    some (truncated (pyStripWS (pyReplace (md.prompt.getD "untitled") "\n" " ")))
  else if key = "nprompt" then
    some (truncated (pyStripWS (pyReplace (md.negative_prompt.getD "") "\n" " ")))
  else if key = "model" then
    some (truncated (splitextStem (pyBasename (md.model.getD "model"))))
  else if key = "date" then
    some (applyDateMarkers (arg.getD "yyyyMMddhhmmss") now)
  else none

/-- Modelled from the claim's words: substitute one token, sanitizing every
substituted value except `date` as a path segment. -/
def specSubstituteToken (md : TemplateMeta) (now : PyDateTime) (res : String)
    (seg : String) : String :=
  let inner := String.mk (stripP (fun c => c = '%') seg.toList)
  let parts := pySplit inner ":"
  let key := parts.headD ""
  match specRawValue md now key parts[1]? with
  | some v => pyReplace res seg (if key = "date" then v else sanitize_segment v)
  | none => res

/-- Modelled from the claim's words: substitute each token occurring in the
template, split the result on `/`, drop blank segments, sanitize each
remaining segment, return `"ComfyUI"` when no segments remain. -/
def formatTemplateSpec (template : String) (md : TemplateMeta)
    (now : PyDateTime) : String :=
  let result := (findTokens template).foldl (specSubstituteToken md now) template
  let segs := (pySplit result "/").filter (fun p => p != "" && pyStripWS p != "")
  let cleaned := segs.map sanitize_segment
  if cleaned = [] then "ComfyUI" else String.intercalate "/" cleaned

/-- Python truthiness of an optional string (`None` and `""` are falsy). -/
def pyTruthy (o : Option String) : Bool :=
  match o with
  | some s => s != ""
  | none => false

/-- Python `a or b` on optional strings. -/
def pyOrStr (a b : Option String) : Option String :=
  if pyTruthy a then a else b

/-- The `user_inputs` dict of `PathManager.build_folder_structure`; `none` is
a missing key, and each `getD` below supplies the Python `.get` default.
`seed_value` is an `int` (the f-string renders it), `max_folder_depth` and
`prompt_max_length` are the non-negative counts the node schema allows. -/
structure BfsUserInputs where
  date_format : Option String
  include_time : Option Bool
  model_name : Option String
  model_short_name : Option Bool
  seed_value : Option Int
  prompt_text : Option String
  prompt_max_length : Option Nat
  custom_path : Option String
  max_folder_depth : Option Nat
  deriving DecidableEq, Repr

/-- The workflow-extracted `metadata` dict fields read by
`PathManager.build_folder_structure`.  For `positive_prompt` the outer
`Option` is key presence and the inner one the value: `none` is a missing
key, `some none` a key holding Python `None` (the shape
`MetadataExtractor.extract_from_workflow` produces by default), and
`some (some s)` a string — the custom mode treats `some none` differently
from the other two, raising a `TypeError`. -/
structure BfsMetadata where
  model : Option String
  seed : Option Int
  positive_prompt : Option (Option String)
  deriving DecidableEq, Repr

/-- The `path_segments` list built by the mode branches of
`PathManager.build_folder_structure` (path_utils.py, lines 68-137).
`Except.error` is the uncaught `TypeError` of the custom branch: when
`custom_path` is truthy the `variables` dict is built eagerly, and its
`{prompt}` entry evaluates `(user_inputs.get("prompt_text") or
metadata.get("positive_prompt", ""))[:50]`, which raises when
`prompt_text` is not truthy and the `positive_prompt` key holds `None`
(`None[:50]`); no other branch can raise. -/
def bfsSegs (structure_mode : String) (metadata : BfsMetadata)
    (user_inputs : BfsUserInputs) (now : PyDateTime) : Except Unit (List String) :=
  if structure_mode = "date" then
    .ok [format_date (user_inputs.date_format.getD "yyyy-MM-dd")
      (user_inputs.include_time.getD false) now]
  else if structure_mode = "model" then
    .ok (match pyOrStr user_inputs.model_name metadata.model with
      | some m =>
        if m ≠ "" then
          [sanitize_filename
            (if user_inputs.model_short_name.getD true then
              splitextStem (pyBasename m)
            else m) 100]
        else []
      | none => [])
  else if structure_mode = "seed" then
    .ok (match (match user_inputs.seed_value with
           | some v => some v
           | none => metadata.seed) with
      | some v => ["seed_" ++ toString v]
      | none => [])
  else if structure_mode = "prompt" then
    .ok (match pyOrStr user_inputs.prompt_text metadata.positive_prompt.join with
      | some p =>
        if p ≠ "" then
          let maxLen := user_inputs.prompt_max_length.getD 50
          [sanitize_filename
            (String.mk ((stripP pyWS (pyReplace p "\n" " ").toList).take maxLen)) 100]
        else []
      | none => [])
  else if structure_mode = "custom" then
    let cp := user_inputs.custom_path.getD ""
    if cp ≠ "" then
      match (if pyTruthy user_inputs.prompt_text then
              Except.ok (user_inputs.prompt_text.getD "")
            else
              match metadata.positive_prompt with
              | none => Except.ok ""
              | some none => Except.error ()
              | some (some s) => Except.ok s) with
      | .error e => .error e
      | .ok praw =>
        let dateV := format_date (user_inputs.date_format.getD "yyyy-MM-dd") false now
        let modelV := sanitize_filename
          ((pyOrStr user_inputs.model_name
            (some (metadata.model.getD "model"))).getD "model") 100
        let seedV :=
          match user_inputs.seed_value with
          | some n => if n ≠ 0 then toString n else toString (metadata.seed.getD 0)
          | none => toString (metadata.seed.getD 0)
        let promptV := sanitize_filename (String.mk (praw.toList.take 50)) 100
        let cp := pyReplace cp "{date}" dateV
        let cp := pyReplace cp "{model}" modelV
        let cp := pyReplace cp "{seed}" seedV
        let cp := pyReplace cp "{prompt}" promptV
        .ok ((((pySplit cp "/").map pyStripWS).filter (fun s => s != "")).map
          (fun s => sanitize_filename s 100))
    else .ok []
  else if structure_mode = "auto" then
    let modelSegs :=
      match pyOrStr user_inputs.model_name metadata.model with
      | some m =>
        if m ≠ "" then
          [sanitize_filename
            (if user_inputs.model_short_name.getD true then
              splitextStem (pyBasename m)
            else m) 100]
        else []
      | none => []
    let seedSegs :=
      match (match user_inputs.seed_value with
             | some v => some v
             | none => metadata.seed) with
      | some v => ["seed_" ++ toString v]
      | none => []
    .ok (format_date "yyyy-MM-dd" false now :: (modelSegs ++ seedSegs))
  else .ok []

/-- The depth cut and falsy filter at the end of
`PathManager.build_folder_structure` (path_utils.py, lines 139-143), applied
when the mode branches did not raise. -/
def bfsClip (maxDepth : Nat) (e : Except Unit (List String)) :
    Except Unit (List String) :=
  match e with
  | .error er => .error er
  | .ok path_segments => .ok ((path_segments.take maxDepth).filter (fun s => s != ""))

/-- Embedding of `PathManager.build_folder_structure` (path_utils.py, lines
65-143), with `datetime.now()` an explicit argument.  (`base_path` is
accepted and ignored by the Python function, so it is omitted.)
`Except.error` is the uncaught custom-mode `TypeError` of `bfsSegs`. -/
def build_folder_structure (structure_mode : String) (metadata : BfsMetadata)
    (user_inputs : BfsUserInputs) (now : PyDateTime) : Except Unit (List String) :=
  bfsClip (user_inputs.max_folder_depth.getD 5)
    (bfsSegs structure_mode metadata user_inputs now)

/-- The metadata dict consumed by `MetadataBuilder.build_parameters_text`.
`steps`, `cfg` and `seed` are kept as their rendered (`f"{...}"`) strings —
the code only tests them against `None`; `width`/`height` are ints tested
for truthiness; the rest are strings tested for truthiness. -/
structure ParamsMeta where
  positive_prompt : Option String
  negative_prompt : Option String
  steps : Option String
  sampler : Option String
  scheduler : Option String
  cfg : Option String
  seed : Option String
  width : Option Int
  height : Option Int
  model : Option String
  deriving DecidableEq, Repr

/-- Embedding of `MetadataBuilder.build_parameters_text`
(src/src/SmartSaveImage/core/metadata.py, lines 136-187). -/
def build_parameters_text (md : ParamsMeta) : String :=
  let parts : List String := []
  let parts := parts ++
    (if pyTruthy md.positive_prompt then [md.positive_prompt.getD ""] else [])
  let parts := parts ++
    (if pyTruthy md.negative_prompt then
      ["Negative prompt: " ++ md.negative_prompt.getD ""]
    else [])
  let params : List String := []
  let params := params ++
    (match md.steps with | some s => ["Steps: " ++ s] | none => [])
  let params := params ++
    (if pyTruthy md.sampler then
      if pyTruthy md.scheduler && md.scheduler.getD "" != "normal" then
        ["Sampler: " ++ md.sampler.getD "" ++ " " ++ md.scheduler.getD ""]
      else ["Sampler: " ++ md.sampler.getD ""]
    else [])
  let params := params ++
    (match md.cfg with | some c => ["CFG scale: " ++ c] | none => [])
  let params := params ++
    (match md.seed with | some s => ["Seed: " ++ s] | none => [])
  let params := params ++
    (match md.width, md.height with
     | some w, some h =>
       if w ≠ 0 ∧ h ≠ 0 then ["Size: " ++ toString w ++ "x" ++ toString h]
       else []
     | _, _ => [])
  let params := params ++
    (if pyTruthy md.model then
      ["Model: " ++ splitextStem (pyBasename (md.model.getD ""))]
    else [])
  let parts := parts ++
    (if params ≠ [] then [String.intercalate ", " params] else [])
  String.intercalate "\n" parts

/-- Modelled from the claim's words: first the positive prompt line when
present, then a `Negative prompt:` line when present, then one
comma-separated parameter line in the order Steps, Sampler (scheduler name
appended unless it equals `normal`), CFG scale, Seed, Size (only when both
width and height are truthy, as `WIDTHxHEIGHT`), Model (basename without
extension) — each only when present — all joined by newlines. -/
def buildParametersTextSpec (md : ParamsMeta) : String :=
  let params :=
    (match md.steps with | some s => ["Steps: " ++ s] | none => []) ++
    (match md.sampler with
     | some sv =>
       if sv ≠ "" then
         [match md.scheduler with
          | some sc =>
            if sc ≠ "" ∧ sc ≠ "normal" then "Sampler: " ++ sv ++ " " ++ sc
            else "Sampler: " ++ sv
          | none => "Sampler: " ++ sv]
       else []
     | none => []) ++
    (match md.cfg with | some c => ["CFG scale: " ++ c] | none => []) ++
    (match md.seed with | some s => ["Seed: " ++ s] | none => []) ++
    (match md.width, md.height with
     | some w, some h =>
       if w ≠ 0 ∧ h ≠ 0 then ["Size: " ++ toString w ++ "x" ++ toString h]
       else []
     | _, _ => []) ++
    (match md.model with
     | some m => if m ≠ "" then ["Model: " ++ splitextStem (pyBasename m)] else []
     | none => [])
  let lines :=
    (match md.positive_prompt with
     | some p => if p ≠ "" then [p] else []
     | none => []) ++
    (match md.negative_prompt with
     | some n => if n ≠ "" then ["Negative prompt: " ++ n] else []
     | none => []) ++
    (if params = [] then [] else [String.intercalate ", " params])
  String.intercalate "\n" lines

/-- The numbered filename `f"{base_filename}_{counter:03d}{extension}"`. -/
def counterName (base ext : String) (c : Nat) : String :=
  base ++ "_" ++ pad3 c ++ ext

/-- The `while True` counter loop of `PathManager.generate_unique_filename`:
try `counter = c`, then `c+1`, ..., giving up (Python: `counter > 9999`
breaks) after `fuel` attempts.  `ex` is the `os.path.exists` state of the
target directory. -/
def searchCounter (ex : String → Bool) (base ext : String) :
    Nat → Nat → Option String
  | _, 0 => none
  | c, fuel + 1 =>
    if ex (counterName base ext c) then searchCounter ex base ext (c + 1) fuel
    else some (counterName base ext c)

/-- Embedding of `PathManager.generate_unique_filename` (path_utils.py, lines 179-203).
The directory contents are the predicate `ex` (`os.path.exists` on the
joined path), and the timestamp-fallback string is an explicit argument. -/
def generate_unique_filename (ex : String → Bool) (base_filename extension : String)
    (overwrite : Bool) (timestamp : String) : String :=
  let filename := base_filename ++ extension
  if !ex filename || overwrite then filename
  else
    match searchCounter ex base_filename extension 1 9999 with
    | some nm => nm
    | none => base_filename ++ "_" ++ timestamp ++ extension

/-- The character set the claim allows in a sanitized filename: letters,
digits, underscore, dash and dot. -/
def allowedChar (c : Char) : Bool :=
  c.isAlphanum || c = '_' || c = '-' || c = '.'

/-- No run of two or more consecutive underscores. -/
def NoDUnd (l : List Char) : Prop :=
  l.Chain' (fun a b => ¬(a = '_' ∧ b = '_'))

/-- A path as Python's `os.path` sees it before resolution: an absolute
flag, a drive (`""` on POSIX), and separator-split components. -/
structure InPath where
  abs : Bool
  drive : String
  comps : List String
  deriving DecidableEq, Repr

/-- A resolved absolute path (`os.path.realpath` output). -/
structure AbsPath where
  drive : String
  comps : List String
  deriving DecidableEq, Repr

/-- Re-read a resolved path as a path value. -/
def toIn (p : AbsPath) : InPath :=
  ⟨true, p.drive, p.comps⟩

/-- Python `os.path.join(a, b)`: an absolute `b` replaces `a`. -/
def pyJoin (a b : InPath) : InPath :=
  if b.abs then b else ⟨a.abs, a.drive, a.comps ++ b.comps⟩

/-- One step of lexical path normalization: drop empty and `.` components,
let `..` pop the previous component (staying at the root when there is
none). -/
def normStep (acc : List String) (c : String) : List String :=
  if c = "" || c = "." then acc
  else if c = ".." then acc.dropLast
  else acc ++ [c]

/-- Lexical normalization of a component list. -/
def normComps (l : List String) : List String :=
  l.foldl normStep []

/-- Python `os.path.realpath` in a filesystem without symlinks: pure lexical
normalization (the drive is kept). -/
def normalizeIn (p : InPath) : AbsPath :=
  ⟨p.drive, normComps p.comps⟩

/-- The longest common component-list prefix (for `os.path.commonpath`). -/
def commonPre : List String → List String → List String
  | x :: xs, y :: ys => if x = y then x :: commonPre xs ys else []
  | _, _ => []

/-- Python `os.path.commonpath([a, b])` on resolved paths: raises `ValueError`
(here `Except.error`) when the two paths are on different drives. -/
def commonPathFn (a b : AbsPath) : Except Unit AbsPath :=
  if a.drive = b.drive then .ok ⟨a.drive, commonPre a.comps b.comps⟩
  else .error ()

/-- The inner `try` of `InputValidator.secure_path_join`: `commonpath` over
the resolved safe base and the candidate, the `realpath(common)` comparison,
and the `except ValueError` fallback to the resolved safe base. -/
def spjCheck (resolve : InPath → Except Unit AbsPath)
    (commonp : AbsPath → AbsPath → Except Unit AbsPath)
    (safe_base : InPath) (rsb cand : AbsPath) : InPath :=
  match commonp rsb cand with
  | .error _ => toIn rsb
  | .ok common =>
    match resolve (toIn common) with
    | .error _ => safe_base
    | .ok rcommon => if rcommon = rsb then toIn cand else toIn rsb

/-- Embedding of `InputValidator.secure_path_join`
(src/src/SmartSaveImage/utils/validators.py, lines 33-71).  `resolve` is
`os.path.realpath` (whose raising is `Except.error`, caught by the outer
`except`, which returns the unresolved `safe_base`); `commonp` is
`os.path.commonpath`, whose `ValueError` the inner `except` turns into the
resolved safe base; `user_path = none` is the empty-string default. -/
def secure_path_join (resolve : InPath → Except Unit AbsPath)
    (commonp : AbsPath → AbsPath → Except Unit AbsPath)
    (safe_base base_path : InPath) (user_path : Option InPath) : InPath :=
  match resolve safe_base with
  | .error _ => safe_base
  | .ok rsb =>
    match (if base_path.abs then resolve base_path
           else resolve (pyJoin safe_base base_path)) with
    | .error _ => safe_base
    | .ok cand0 =>
      match (match user_path with
             | none => Except.ok cand0
             | some up => resolve (pyJoin (toIn cand0) up)) with
      | .error _ => safe_base
      | .ok cand => spjCheck resolve commonp safe_base rsb cand

/-- Embedding of `ImageProcessor.save_image`
(src/src/SmartSaveImage/core/image_utils.py, lines 101-136): the whole body
is one `try`, so the function's value is `False` as soon as the tensor
conversion (`tensor_to_pil`), the metadata embedding (the `PngInfo` /
EXIF-attachment step) or the `pil_image.save` call raises, and `True` when
all three succeed; each step's outcome is an explicit `Except` argument. -/
def save_image (convertStep embedStep writeStep : Except Unit Unit) : Bool :=
  match convertStep with
  | .error _ => false
  | .ok _ =>
    match embedStep with
    | .error _ => false
    | .ok _ =>
      match writeStep with
      | .error _ => false
      | .ok _ => true

/-- Embedding of `SmartImageSaver.parse_metadata_json`
(src/src/SmartSaveImage/nodes/image_saver.py, lines 166-175): an empty
string short-circuits to `{}`; `json.loads` is the `parse` argument and a
raise (malformed JSON) is caught, returning `{}`. -/
def parse_metadata_json (metadata_json : String)
    (parse : String → Except Unit (List (String × String))) :
    List (String × String) :=
  if metadata_json = "" then []
  else
    match parse metadata_json with
    | .ok d => d
    | .error _ => []

end SmartSave

namespace SmartSave

example : sanitize_filename "hello world" 100 = "hello_world" := by decide
example : sanitize_filename "a<b>c" 100 = "a_b_c" := by decide
example : sanitize_filename "" 100 = "untitled" := by decide
example : sanitize_filename "__a__b__" 100 = "a_b" := by decide
example : sanitize_filename "..." 100 = "untitled" := by decide
example : sanitize_filename "abcdef" 3 = "abc" := by decide
example : sanitize_filename "ab_cdef" 3 = "ab" := by decide

example : format_date "yyyy-MM-dd" false ⟨2024, 3, 7, 15, 4, 9, 0⟩ = "2024-03-07" := by decide
example : format_date "yyyy" true ⟨2024, 3, 7, 15, 4, 9, 0⟩ = "2024_15-04-09" := by decide
example : format_date "MM/dd" true ⟨2024, 3, 7, 15, 4, 9, 0⟩ = "03/07_15-04-09" := by decide
example : sanitize_segment "a b:c" = "a_b_c" := by decide
example : sanitize_segment " ?x. " = "x" := by decide
example : pyReplace "banana" "an" "o" = "booa" := by decide
example : pySplit "a//b" "/" = ["a", "", "b"] := by decide
example : pySplit "" "/" = [""] := by decide
example : pyBasename "models/sd/one.safetensors" = "one.safetensors" := by decide
example : splitextStem "one.safetensors" = "one" := by decide
example : splitextStem ".bashrc" = ".bashrc" := by decide
example : splitextStem "a.b.c" = "a.b" := by decide
example : pyParseInt " 64 " = some 64 := by decide
example : pyParseInt "-3" = some (-3) := by decide
example : pyParseInt "x3" = none := by decide
example : pySliceTo "abcdef" 3 = "abc" := by decide
example : pySliceTo "abcdef" (-2) = "abcd" := by decide
example : pySliceTo "abcdef" 100 = "abcdef" := by decide
example : findTokens "ComfyUI/%date:yyyy-MM-dd%/%model%/%seed%" =
    ["%date:yyyy-MM-dd%", "%model%", "%seed%"] := by decide
example : findTokens "%a%seed%" = ["%a%"] := by decide
example : findTokens "%%a%" = ["%a%"] := by decide
example : findTokens "a%b" = [] := by decide

example :
    format_template "ComfyUI/%date:yyyy-MM-dd%/%model%/%seed%/%pprompt:5%"
      ⟨some (.intV 42), none, none, some "a cat walks", none,
        some "sd/one.safetensors"⟩ ⟨2024, 3, 7, 15, 4, 9, 0⟩ =
    "ComfyUI/2024-03-07/one/42/a_cat" := by decide
example :
    format_template "%seed%" ⟨some (.intV (-1)), none, none, none, none, none⟩
      ⟨2024, 3, 7, 15, 4, 9, 0⟩ = "rand" := by decide
example :
    format_template "%seed%" ⟨none, none, none, none, none, none⟩
      ⟨2024, 3, 7, 15, 4, 9, 0⟩ = "seed" := by decide
example :
    format_template "%foo%" ⟨none, none, none, none, none, none⟩
      ⟨2024, 3, 7, 15, 4, 9, 0⟩ = "foo" := by decide
example :
    format_template "" ⟨none, none, none, none, none, none⟩
      ⟨2024, 3, 7, 15, 4, 9, 0⟩ = "ComfyUI" := by decide
example :
    format_template "a/ /b" ⟨none, none, none, none, none, none⟩
      ⟨2024, 3, 7, 15, 4, 9, 0⟩ = "a/b" := by decide

example :
    build_folder_structure "seed" ⟨none, some 7, none⟩
      ⟨none, none, none, none, some 0, none, none, none, none⟩
      ⟨2024, 3, 7, 15, 4, 9, 0⟩ = .ok ["seed_0"] := by rfl
example :
    build_folder_structure "seed" ⟨none, some 7, none⟩
      ⟨none, none, none, none, none, none, none, none, none⟩
      ⟨2024, 3, 7, 15, 4, 9, 0⟩ = .ok ["seed_7"] := by rfl
example :
    build_folder_structure "model" ⟨some "wf/meta.ckpt", none, none⟩
      ⟨none, none, some "user/pick.safetensors", none, none, none, none, none, none⟩
      ⟨2024, 3, 7, 15, 4, 9, 0⟩ = .ok ["pick"] := by rfl
example :
    build_folder_structure "auto" ⟨some "m.ckpt", some 5, none⟩
      ⟨none, none, none, none, none, none, none, none, some 2⟩
      ⟨2024, 3, 7, 15, 4, 9, 0⟩ = .ok ["2024-03-07", "m"] := by rfl
example :
    build_folder_structure "custom" ⟨none, some 5, none⟩
      ⟨none, none, none, none, none, none, none, some "a/{seed}/b", none⟩
      ⟨2024, 3, 7, 15, 4, 9, 0⟩ = .ok ["a", "5", "b"] := by rfl
example :
    build_folder_structure "custom" ⟨none, some 5, some (some "cat")⟩
      ⟨none, none, none, none, none, none, none, some "a/{prompt}", none⟩
      ⟨2024, 3, 7, 15, 4, 9, 0⟩ = .ok ["a", "cat"] := by rfl
example :
    build_folder_structure "custom" ⟨none, none, some none⟩
      ⟨none, none, none, none, none, none, none, some "a", none⟩
      ⟨2024, 3, 7, 15, 4, 9, 0⟩ = .error () := by rfl
example :
    build_folder_structure "prompt" ⟨none, none, some none⟩
      ⟨none, none, none, none, none, none, none, none, none⟩
      ⟨2024, 3, 7, 15, 4, 9, 0⟩ = .ok [] := by rfl

/-- The token loop body of the code agrees with the claim-worded
substitution rule, token by token. -/
theorem applyToken_agrees (md : TemplateMeta) (now : PyDateTime) (res seg : String) :
    applyTokenCode md now res seg = specSubstituteToken md now res seg := by
  simp only [applyTokenCode, specSubstituteToken, specRawValue]
  split_ifs <;> simp_all

/-- C1: for every template and metadata dictionary (and clock reading),
`SmartSaveImage.format_template` substitutes each `%key%` / `%key:arg%`
token found by its regex with the value the claim describes — `seed`
yielding `rand` for a negative integer and `seed` for a non-numeric value,
`pprompt`/`nprompt`/`model` truncated to an integer `arg`, `model` reduced
to its extension-less basename, `date` applying the `yyyy/yy/MM/dd/hh/mm/ss`
markers to the `arg` — sanitizing every substituted value except `date` as a
path segment; the result is split on `/`, blank segments are dropped, each
remaining segment is sanitized, and `ComfyUI` is returned when no segments
remain. -/
theorem format_template_matches_spec (template : String) (md : TemplateMeta)
    (now : PyDateTime) :
    format_template template md now = formatTemplateSpec template md now := by
  unfold format_template formatTemplateSpec
  have h : applyTokenCode md now = specSubstituteToken md now := by
    funext res seg
    exact applyToken_agrees md now res seg
  rw [h]

/-- C3: in `PathManager.build_folder_structure` the user input takes
precedence over the extracted workflow metadata: the `model` mode behaves as
if the metadata model were `user_inputs["model_name"]` whenever that is
truthy; the `seed` mode behaves as if the metadata seed were
`user_inputs["seed_value"]` whenever that is not `None` (so also for the
value `0`); the `prompt` mode behaves as if the metadata positive prompt
were `user_inputs["prompt_text"]` whenever that is truthy. -/
theorem build_folder_structure_user_precedence (now : PyDateTime)
    (md : BfsMetadata) (ui : BfsUserInputs) :
    (build_folder_structure "model" md ui now =
      build_folder_structure "model"
        { md with model := if pyTruthy ui.model_name then ui.model_name else md.model }
        { ui with model_name := none } now) ∧
    (build_folder_structure "seed" md ui now =
      build_folder_structure "seed"
        { md with seed := if ui.seed_value.isSome then ui.seed_value else md.seed }
        { ui with seed_value := none } now) ∧
    (build_folder_structure "prompt" md ui now =
      build_folder_structure "prompt"
        { md with positive_prompt :=
            if pyTruthy ui.prompt_text then some ui.prompt_text
            else md.positive_prompt }
        { ui with prompt_text := none } now) := by
  refine ⟨?_, ?_, ?_⟩
  · cases h : ui.model_name with
    | none => simp [build_folder_structure, bfsSegs, bfsClip, pyOrStr, pyTruthy, h]
    | some s =>
      by_cases hs : s = "" <;>
        simp [build_folder_structure, bfsSegs, bfsClip, pyOrStr, pyTruthy, h, hs]
  · cases h : ui.seed_value with
    | none => simp [build_folder_structure, bfsSegs, bfsClip, h]
    | some v => simp [build_folder_structure, bfsSegs, bfsClip, h]
  · cases h : ui.prompt_text with
    | none =>
      simp [build_folder_structure, bfsSegs, bfsClip, pyOrStr, pyTruthy, h]
    | some s =>
      by_cases hs : s = "" <;>
        simp [build_folder_structure, bfsSegs, bfsClip, pyOrStr, pyTruthy, h, hs,
          Option.join]

example : String.intercalate ", " ["a", "b"] = "a, b" := by decide
example :
    build_parameters_text
      ⟨some "cat", some "dog", some "20", some "euler", some "karras",
        some "7.5", some "42", some 512, some 768, some "sd/one.ckpt"⟩ =
    "cat\nNegative prompt: dog\nSteps: 20, Sampler: euler karras, CFG scale: 7.5, Seed: 42, Size: 512x768, Model: one" := by
  decide
example :
    build_parameters_text
      ⟨none, none, none, some "euler", some "normal", none, none, none, none, none⟩ =
    "Sampler: euler" := by decide
example :
    build_parameters_text
      ⟨none, none, none, none, none, none, none, some 512, some 0, none⟩ = "" := by
  decide

theorem posChunk_eq (o : Option String) :
    (if pyTruthy o then [o.getD ""] else []) =
      (match o with
       | some p => if p ≠ "" then [p] else []
       | none => ([] : List String)) := by
  cases o with
  | none => simp [pyTruthy]
  | some s => by_cases hs : s = "" <;> simp [pyTruthy, hs]

theorem negChunk_eq (o : Option String) :
    (if pyTruthy o then ["Negative prompt: " ++ o.getD ""] else []) =
      (match o with
       | some n => if n ≠ "" then ["Negative prompt: " ++ n] else []
       | none => ([] : List String)) := by
  cases o with
  | none => simp [pyTruthy]
  | some s => by_cases hs : s = "" <;> simp [pyTruthy, hs]

theorem modelChunk_eq (o : Option String) :
    (if pyTruthy o then ["Model: " ++ splitextStem (pyBasename (o.getD ""))] else []) =
      (match o with
       | some m => if m ≠ "" then ["Model: " ++ splitextStem (pyBasename m)] else []
       | none => ([] : List String)) := by
  cases o with
  | none => simp [pyTruthy]
  | some s => by_cases hs : s = "" <;> simp [pyTruthy, hs]

theorem samplerChunk_eq (sa sc : Option String) :
    (if pyTruthy sa then
        if pyTruthy sc && sc.getD "" != "normal" then
          ["Sampler: " ++ sa.getD "" ++ " " ++ sc.getD ""]
        else ["Sampler: " ++ sa.getD ""]
      else []) =
      (match sa with
       | some sv =>
         if sv ≠ "" then
           [match sc with
            | some scv =>
              if scv ≠ "" ∧ scv ≠ "normal" then "Sampler: " ++ sv ++ " " ++ scv
              else "Sampler: " ++ sv
            | none => "Sampler: " ++ sv]
         else []
       | none => ([] : List String)) := by
  cases sa with
  | none => simp [pyTruthy]
  | some sv =>
    cases sc with
    | none => by_cases hv : sv = "" <;> simp [pyTruthy, hv]
    | some scv =>
      by_cases hv : sv = "" <;> by_cases hc : scv = "" <;>
        by_cases hn : scv = "normal" <;> simp [pyTruthy, hv, hc, hn]

theorem flipNilIte_eq (l : List String) (x : String) :
    (if l ≠ [] then [x] else []) = (if l = [] then [] else [x]) := by
  by_cases h : l = [] <;> simp [h]

/-- C6: `MetadataBuilder.build_parameters_text` produces exactly the lines
and the parameter order the claim describes. -/
theorem build_parameters_text_matches_spec (md : ParamsMeta) :
    build_parameters_text md = buildParametersTextSpec md := by
  simp only [build_parameters_text, buildParametersTextSpec, posChunk_eq,
    negChunk_eq, modelChunk_eq, samplerChunk_eq, flipNilIte_eq,
    List.nil_append, List.append_assoc]

theorem takePre (l : List Char) (n : Nat) : l.take n <+: l :=
  ⟨l.drop n, List.take_append_drop n l⟩

theorem dropWhileSuffix (p : Char → Bool) : ∀ l : List Char, l.dropWhile p <:+ l := by
  intro l
  induction l with
  | nil => exact List.suffix_refl _
  | cons a rest ih =>
    by_cases pa : p a = true
    · have h1 : (a :: rest).dropWhile p = rest.dropWhile p := by
        simp [List.dropWhile, pa]
      rw [h1]
      exact ih.trans (List.suffix_cons a rest)
    · have pa' : p a = false := by simpa using pa
      have h1 : (a :: rest).dropWhile p = a :: rest := by
        simp [List.dropWhile, pa']
      rw [h1]

theorem rstripPre (p : Char → Bool) (m : List Char) : rstripP p m <+: m := by
  unfold rstripP
  have hs := dropWhileSuffix p m.reverse
  have h2 := List.reverse_prefix.mpr hs
  rwa [List.reverse_reverse] at h2

theorem lstripSuf (p : Char → Bool) (m : List Char) : lstripP p m <:+ m :=
  dropWhileSuffix p m

theorem isPreHead {l₁ l₂ : List Char} (h : l₁ <+: l₂) {c : Char}
    (hc : l₁.head? = some c) : l₂.head? = some c := by
  obtain ⟨t, rfl⟩ := h
  cases l₁ with
  | nil => simp at hc
  | cons a t1 =>
    simp only [List.head?_cons, Option.some.injEq] at hc
    simp [hc]

theorem dropWhileHead (p : Char → Bool) :
    ∀ (l : List Char) {c : Char} {t : List Char}, l.dropWhile p = c :: t → p c = false := by
  intro l
  induction l with
  | nil =>
    intro c t h
    simp at h
  | cons a rest ih =>
    intro c t h
    by_cases pa : p a = true
    · rw [show (a :: rest).dropWhile p = rest.dropWhile p from by
        simp [List.dropWhile, pa]] at h
      exact ih h
    · have pa' : p a = false := by simpa using pa
      rw [show (a :: rest).dropWhile p = a :: rest from by
        simp [List.dropWhile, pa']] at h
      cases h
      exact pa'

theorem lstripHead (p : Char → Bool) (m : List Char) {c : Char}
    (h : (lstripP p m).head? = some c) : p c = false := by
  unfold lstripP at h
  cases hcase : m.dropWhile p with
  | nil => rw [hcase] at h; simp at h
  | cons x t =>
    rw [hcase] at h
    simp only [List.head?_cons, Option.some.injEq] at h
    subst h
    exact dropWhileHead p m hcase

theorem rstripLast (p : Char → Bool) (m : List Char) {c : Char}
    (h : (rstripP p m).getLast? = some c) : p c = false := by
  unfold rstripP at h
  rw [List.getLast?_reverse] at h
  cases hcase : m.reverse.dropWhile p with
  | nil => rw [hcase] at h; simp at h
  | cons x t =>
    rw [hcase] at h
    simp only [List.head?_cons, Option.some.injEq] at h
    subst h
    exact dropWhileHead p m.reverse hcase

theorem stripHead (p : Char → Bool) (m : List Char) {c : Char}
    (h : (stripP p m).head? = some c) : p c = false := by
  unfold stripP at h
  exact lstripHead p m (isPreHead (rstripPre p (lstripP p m)) h)

theorem collapseConsNeg (p : Char → Bool) (r : Char) (b : Char) (t : List Char)
    (hb : p b = false) : collapseRuns p r (b :: t) = b :: collapseRuns p r t := by
  cases t <;> simp [collapseRuns, hb]

theorem memCollapse {p : Char → Bool} {r : Char} :
    ∀ {l : List Char} {c : Char}, c ∈ collapseRuns p r l → c ∈ l ∨ c = r := by
  intro l
  induction l with
  | nil =>
    intro c hc
    simp [collapseRuns] at hc
  | cons a rest ih =>
    intro c hc
    by_cases pa : p a = true
    · cases rest with
      | nil =>
        simp [collapseRuns, pa] at hc
        exact Or.inr hc
      | cons b t =>
        by_cases pb : p b = true
        · rw [show collapseRuns p r (a :: b :: t) = collapseRuns p r (b :: t) from by
            simp [collapseRuns, pa, pb]] at hc
          rcases ih hc with h | h
          · exact Or.inl (List.mem_cons_of_mem a h)
          · exact Or.inr h
        · rw [show collapseRuns p r (a :: b :: t) = r :: collapseRuns p r (b :: t) from by
            simp [collapseRuns, pa, pb]] at hc
          rcases List.mem_cons.mp hc with h | h
          · exact Or.inr h
          · rcases ih h with h2 | h2
            · exact Or.inl (List.mem_cons_of_mem a h2)
            · exact Or.inr h2
    · have pa' : p a = false := by simpa using pa
      rw [show collapseRuns p r (a :: rest) = a :: collapseRuns p r rest from by
        cases rest <;> simp [collapseRuns, pa']] at hc
      rcases List.mem_cons.mp hc with h | h
      · exact Or.inl (by simp [h])
      · rcases ih h with h2 | h2
        · exact Or.inl (List.mem_cons_of_mem a h2)
        · exact Or.inr h2

theorem chainCollapse (p : Char → Bool) (r : Char) :
    ∀ l : List Char,
      (collapseRuns p r l).Chain' (fun a b => ¬(p a = true ∧ p b = true)) := by
  intro l
  induction l with
  | nil => simp [collapseRuns]
  | cons a rest ih =>
    by_cases pa : p a = true
    · cases rest with
      | nil => simp [collapseRuns, pa]
      | cons b t =>
        by_cases pb : p b = true
        · rw [show collapseRuns p r (a :: b :: t) = collapseRuns p r (b :: t) from by
            simp [collapseRuns, pa, pb]]
          exact ih
        · have hb : p b = false := by simpa using pb
          rw [show collapseRuns p r (a :: b :: t) = r :: collapseRuns p r (b :: t) from by
            simp [collapseRuns, pa, pb], collapseConsNeg p r b t hb]
          rw [List.chain'_cons]
          constructor
          · intro hcon
            rw [hb] at hcon
            exact Bool.noConfusion hcon.2
          · rw [← collapseConsNeg p r b t hb]
            exact ih
    · have pa' : p a = false := by simpa using pa
      rw [show collapseRuns p r (a :: rest) = a :: collapseRuns p r rest from by
        cases rest <;> simp [collapseRuns, pa']]
      rw [List.chain'_cons']
      refine ⟨fun y _ => ?_, ih⟩
      intro hcon
      exact pa hcon.1

theorem allowedKeepMap (l : List Char) :
    ∀ c ∈ l.map (fun c => if keepFileChar c then c else '_'), allowedChar c = true := by
  intro c hc
  rcases List.mem_map.mp hc with ⟨a, -, rfl⟩
  by_cases ha : keepFileChar a = true
  · rw [if_pos ha]
    simpa [allowedChar, keepFileChar, wordChar] using ha
  · rw [if_neg ha]
    decide

theorem allowedCollapseUnd {l : List Char} (h : ∀ c ∈ l, allowedChar c = true) :
    ∀ c ∈ collapseRuns (fun c => c = '_') '_' l, allowedChar c = true := by
  intro c hc
  rcases memCollapse hc with h1 | rfl
  · exact h c h1
  · decide

theorem memRstrip (p : Char → Bool) (m : List Char) {c : Char}
    (hc : c ∈ rstripP p m) : c ∈ m :=
  (rstripPre p m).subset hc

theorem memTake (m : List Char) (n : Nat) {c : Char} (hc : c ∈ m.take n) : c ∈ m :=
  (takePre m n).subset hc

theorem memStrip (p : Char → Bool) (m : List Char) {c : Char}
    (hc : c ∈ stripP p m) : c ∈ m :=
  (lstripSuf p m).subset ((rstripPre p (lstripP p m)).subset hc)

theorem sanitizeCoreAllowed (l : List Char) (maxLen : Nat) :
    ∀ c ∈ sanitizeFilenameCore l maxLen, allowedChar c = true := by
  intro c hc
  simp only [sanitizeFilenameCore] at hc
  split at hc
  · exact allowedCollapseUnd (allowedKeepMap _) c
      (memStrip _ _ (memTake _ _ (memRstrip _ _ hc)))
  · exact allowedCollapseUnd (allowedKeepMap _) c (memStrip _ _ hc)

theorem sanitizeCoreLen (l : List Char) (maxLen : Nat) :
    (sanitizeFilenameCore l maxLen).length ≤ maxLen := by
  simp only [sanitizeFilenameCore]
  split
  · calc (rstripP _ _).length
        ≤ (List.take maxLen _).length := (rstripPre _ _).length_le
      _ ≤ maxLen := by
        rw [List.length_take]
        exact min_le_left _ _
  · omega

theorem nduCollapse (l : List Char) :
    NoDUnd (collapseRuns (fun c => c = '_') '_' l) := by
  have h := chainCollapse (fun c => c = '_') '_' l
  unfold NoDUnd
  refine h.imp ?_
  intro a b hR hS
  exact hR ⟨by simp [hS.1], by simp [hS.2]⟩

theorem nduPre {l₁ l₂ : List Char} (h : NoDUnd l₂) (hp : l₁ <+: l₂) : NoDUnd l₁ := by
  obtain ⟨t, rfl⟩ := hp
  unfold NoDUnd at *
  have h2 := h.take l₁.length
  rwa [List.take_left] at h2

theorem nduSuf {l₁ l₂ : List Char} (h : NoDUnd l₂) (hs : l₁ <:+ l₂) : NoDUnd l₁ :=
  List.Chain'.suffix h hs

theorem nduReverse {l : List Char} (h : NoDUnd l) : NoDUnd l.reverse := by
  unfold NoDUnd at *
  rw [List.chain'_reverse]
  have heq : (flip fun a b : Char => ¬(a = '_' ∧ b = '_')) =
      fun a b : Char => ¬(a = '_' ∧ b = '_') := by
    funext a b
    simp [flip, and_comm]
  rw [heq]
  exact h

theorem nduRstrip {p : Char → Bool} {l : List Char} (h : NoDUnd l) :
    NoDUnd (rstripP p l) :=
  nduReverse (nduSuf (nduReverse h) (dropWhileSuffix p l.reverse))

theorem nduLstrip {p : Char → Bool} {l : List Char} (h : NoDUnd l) :
    NoDUnd (lstripP p l) :=
  nduSuf h (lstripSuf p l)

theorem sanitizeCoreNdu (l : List Char) (maxLen : Nat) :
    NoDUnd (sanitizeFilenameCore l maxLen) := by
  simp only [sanitizeFilenameCore]
  split
  · exact nduRstrip (nduPre (nduRstrip (nduLstrip (nduCollapse _))) (takePre _ _))
  · exact nduRstrip (nduLstrip (nduCollapse _))

theorem sanitizeCoreHead (l : List Char) (maxLen : Nat) {c : Char}
    (h : (sanitizeFilenameCore l maxLen).head? = some c) : c ≠ '_' ∧ c ≠ '.' := by
  simp only [sanitizeFilenameCore] at h
  have hp : (fun ch : Char => (ch = '_' || ch = '.' : Bool)) c = false := by
    split at h
    · exact stripHead _ _ (isPreHead (takePre _ _) (isPreHead (rstripPre _ _) h))
    · exact stripHead _ _ h
  simpa using hp

theorem sanitizeCoreLast (l : List Char) (maxLen : Nat) {c : Char}
    (h : (sanitizeFilenameCore l maxLen).getLast? = some c) : c ≠ '_' ∧ c ≠ '.' := by
  simp only [sanitizeFilenameCore] at h
  have hp : (fun ch : Char => (ch = '_' || ch = '.' : Bool)) c = false := by
    split at h
    · exact rstripLast _ _ h
    · exact rstripLast _ _ h
  simpa using hp

theorem allowedNotIllegal {c : Char} (h : allowedChar c = true) :
    illegalWinChar c = false := by
  by_contra hbad
  have hb : illegalWinChar c = true := by simpa using hbad
  simp only [illegalWinChar, Bool.or_eq_true, decide_eq_true_eq] at hb
  rcases hb with ((((((((h1 | h1) | h1) | h1) | h1) | h1) | h1) | h1) | h1) <;>
    · try subst h1
      exact absurd h (by decide)

theorem allowedNotWS {c : Char} (h : allowedChar c = true) : pyWS c = false := by
  by_contra hbad
  have hb : pyWS c = true := by simpa using hbad
  simp only [pyWS, Bool.or_eq_true, decide_eq_true_eq] at hb
  rcases hb with (((((h1 | h1) | h1) | h1) | h1) | h1) <;>
    · try subst h1
      exact absurd h (by decide)

/-- C2 counterexample: with `max_length = 3` and empty input,
`PathManager.sanitize_filename` returns the 8-character fallback
`"untitled"`, so the claimed bound `length ≤ max_length` fails. -/
theorem sanitize_filename_length_cex :
    sanitize_filename "" 3 = "untitled" ∧ ¬((sanitize_filename "" 3).length ≤ 3) := by
  decide

/-- C2 (amended): `PathManager.sanitize_filename` returns a non-empty string
of length at most `max(max_length, 8)` (the fallback `"untitled"` has length
8 and can exceed a smaller `max_length`); the result contains only letters,
digits, underscore, dash and dot — hence no Windows-illegal character and no
whitespace — has no run of two or more consecutive underscores, neither
begins nor ends with `'_'` or `'.'`, and equals `"untitled"` whenever the
input is empty or the cleaned name would be empty. -/
theorem sanitize_filename_amended (name : String) (maxLen : Nat) :
    sanitize_filename name maxLen ≠ "" ∧
    (sanitize_filename name maxLen).length ≤ max maxLen 8 ∧
    (∀ c ∈ (sanitize_filename name maxLen).toList,
      allowedChar c = true ∧ illegalWinChar c = false ∧ pyWS c = false) ∧
    NoDUnd (sanitize_filename name maxLen).toList ∧
    (∀ c, (sanitize_filename name maxLen).toList.head? = some c →
      c ≠ '_' ∧ c ≠ '.') ∧
    (∀ c, (sanitize_filename name maxLen).toList.getLast? = some c →
      c ≠ '_' ∧ c ≠ '.') ∧
    ((name = "" ∨ sanitizeFilenameCore name.toList maxLen = []) →
      sanitize_filename name maxLen = "untitled") := by
  by_cases hname : name = ""
  · subst hname
    have hres : sanitize_filename "" maxLen = "untitled" := rfl
    rw [hres]
    refine ⟨by decide, Nat.le_max_right maxLen 8, by decide,
      by simp [NoDUnd, List.chain'_cons], ?_, ?_, fun _ => rfl⟩
    · intro c hc
      simp only [List.head?] at hc
      cases hc
      decide
    · intro c hc
      simp at hc
      subst hc
      decide
  · by_cases hcore : sanitizeFilenameCore name.toList maxLen = []
    · have hres : sanitize_filename name maxLen = "untitled" := by
        unfold sanitize_filename
        rw [if_neg hname, if_pos hcore]
      rw [hres]
      refine ⟨by decide, Nat.le_max_right maxLen 8, by decide,
        by simp [NoDUnd, List.chain'_cons], ?_, ?_, fun _ => rfl⟩
      · intro c hc
        simp only [List.head?] at hc
        cases hc
        decide
      · intro c hc
        simp at hc
        subst hc
        decide
    · have hres : sanitize_filename name maxLen =
          String.mk (sanitizeFilenameCore name.toList maxLen) := by
        unfold sanitize_filename
        rw [if_neg hname, if_neg hcore]
      refine ⟨?_, ?_, ?_, ?_, ?_, ?_, ?_⟩
      · rw [hres]
        intro hbad
        apply hcore
        have h2 : (String.mk (sanitizeFilenameCore name.toList maxLen)).data =
            ("" : String).data := by rw [hbad]
        simpa using h2
      · rw [hres]
        calc (String.mk (sanitizeFilenameCore name.toList maxLen)).length
            = (sanitizeFilenameCore name.toList maxLen).length := rfl
          _ ≤ maxLen := sanitizeCoreLen name.toList maxLen
          _ ≤ max maxLen 8 := Nat.le_max_left maxLen 8
      · rw [hres]
        intro c hc
        have ha := sanitizeCoreAllowed name.toList maxLen c hc
        exact ⟨ha, allowedNotIllegal ha, allowedNotWS ha⟩
      · rw [hres]
        exact sanitizeCoreNdu name.toList maxLen
      · rw [hres]
        intro c hc
        exact sanitizeCoreHead name.toList maxLen hc
      · rw [hres]
        intro c hc
        exact sanitizeCoreLast name.toList maxLen hc
      · intro hor
        rcases hor with h | h
        · exact absurd h hname
        · exact absurd h hcore

/-- C2 witness: at `name = ""`, `max_length = 3` the amended bound and the
fallback clause hold. -/
theorem sanitize_filename_amended_witness :
    sanitize_filename "" 3 = "untitled" ∧ sanitize_filename "" 3 ≠ "" ∧
    (sanitize_filename "" 3).length ≤ max 3 8 := by
  have h := sanitize_filename_amended "" 3
  exact ⟨h.2.2.2.2.2.2 (Or.inl rfl), h.1, h.2.1⟩

theorem memDropLast {α : Type} {l : List α} {c : α} (hc : c ∈ l.dropLast) :
    c ∈ l := by
  induction l with
  | nil => simp at hc
  | cons a t ih =>
    cases t with
    | nil => simp at hc
    | cons b t2 =>
      rw [List.dropLast_cons₂, List.mem_cons] at hc
      rcases hc with h | h
      · simp [h]
      · exact List.mem_cons_of_mem a (ih h)

theorem normStepNormal {acc : List String}
    (hacc : ∀ c ∈ acc, ¬c = "" ∧ ¬c = "." ∧ ¬c = "..") (a : String) :
    ∀ c ∈ normStep acc a, ¬c = "" ∧ ¬c = "." ∧ ¬c = ".." := by
  intro c hc
  unfold normStep at hc
  split_ifs at hc with h1 h2
  · exact hacc c hc
  · exact hacc c (memDropLast hc)
  · simp only [Bool.or_eq_true, decide_eq_true_eq, not_or] at h1
    simp only [decide_eq_true_eq] at h2
    rcases List.mem_append.mp hc with h | h
    · exact hacc c h
    · simp only [List.mem_singleton] at h
      subst h
      exact ⟨h1.1, h1.2, h2⟩

theorem normCompsNormalAux :
    ∀ (l acc : List String), (∀ c ∈ acc, ¬c = "" ∧ ¬c = "." ∧ ¬c = "..") →
      ∀ c ∈ l.foldl normStep acc, ¬c = "" ∧ ¬c = "." ∧ ¬c = ".." := by
  intro l
  induction l with
  | nil =>
    intro acc hacc
    simpa using hacc
  | cons a t ih =>
    intro acc hacc
    rw [List.foldl_cons]
    exact ih _ (normStepNormal hacc a)

theorem normCompsNormal (l : List String) :
    ∀ c ∈ normComps l, ¬c = "" ∧ ¬c = "." ∧ ¬c = ".." :=
  normCompsNormalAux l [] (by simp)

theorem foldlNormId :
    ∀ (l acc : List String), (∀ c ∈ l, ¬c = "" ∧ ¬c = "." ∧ ¬c = "..") →
      l.foldl normStep acc = acc ++ l := by
  intro l
  induction l with
  | nil =>
    intro acc _
    simp
  | cons a t ih =>
    intro acc h
    rw [List.foldl_cons]
    have ha := h a (by simp)
    have hstep : normStep acc a = acc ++ [a] := by
      simp [normStep, ha.1, ha.2.1, ha.2.2]
    rw [hstep, ih _ (fun c hc => h c (by simp [hc]))]
    simp

theorem normCompsId (l : List String)
    (h : ∀ c ∈ l, ¬c = "" ∧ ¬c = "." ∧ ¬c = "..") : normComps l = l := by
  unfold normComps
  rw [foldlNormId l [] h]
  simp

theorem commonPreFst : ∀ xs ys : List String, commonPre xs ys <+: xs := by
  intro xs
  induction xs with
  | nil =>
    intro ys
    exact ⟨[], by simp [commonPre]⟩
  | cons x t ih =>
    intro ys
    cases ys with
    | nil => exact ⟨x :: t, by simp [commonPre]⟩
    | cons y ys2 =>
      by_cases hxy : x = y
      · rw [show commonPre (x :: t) (y :: ys2) = x :: commonPre t ys2 from by
          simp [commonPre, hxy]]
        obtain ⟨r, hr⟩ := ih ys2
        exact ⟨r, by rw [List.cons_append, hr]⟩
      · rw [show commonPre (x :: t) (y :: ys2) = [] from by simp [commonPre, hxy]]
        exact ⟨x :: t, rfl⟩

theorem commonPreSnd : ∀ xs ys : List String, commonPre xs ys <+: ys := by
  intro xs
  induction xs with
  | nil =>
    intro ys
    exact ⟨ys, by simp [commonPre]⟩
  | cons x t ih =>
    intro ys
    cases ys with
    | nil => exact ⟨[], by simp [commonPre]⟩
    | cons y ys2 =>
      by_cases hxy : x = y
      · rw [show commonPre (x :: t) (y :: ys2) = x :: commonPre t ys2 from by
          simp [commonPre, hxy]]
        obtain ⟨r, hr⟩ := ih ys2
        exact ⟨r, by rw [List.cons_append, hr, hxy]⟩
      · rw [show commonPre (x :: t) (y :: ys2) = [] from by simp [commonPre, hxy]]
        exact ⟨y :: ys2, rfl⟩

/-- The inner check keeps the result inside the resolved safe base. -/
theorem spjCheckConfined (safe_base : InPath) (cand : AbsPath) :
    ∃ c : AbsPath,
      spjCheck (fun p => .ok (normalizeIn p)) commonPathFn safe_base
          (normalizeIn safe_base) cand = toIn c ∧
      c.drive = (normalizeIn safe_base).drive ∧
      (normalizeIn safe_base).comps <+: c.comps := by
  unfold spjCheck commonPathFn
  by_cases hd : (normalizeIn safe_base).drive = cand.drive
  · rw [if_pos hd]
    dsimp only
    have hnorm := normCompsNormal safe_base.comps
    have hpre := commonPreFst (normalizeIn safe_base).comps cand.comps
    have hid : normComps (commonPre (normalizeIn safe_base).comps cand.comps) =
        commonPre (normalizeIn safe_base).comps cand.comps :=
      normCompsId _ (fun c hc => hnorm c (hpre.subset hc))
    by_cases heq : (normalizeIn (toIn ⟨(normalizeIn safe_base).drive,
        commonPre (normalizeIn safe_base).comps cand.comps⟩)) = normalizeIn safe_base
    · rw [if_pos heq]
      refine ⟨cand, rfl, hd.symm, ?_⟩
      have hcomps : normComps (commonPre (normalizeIn safe_base).comps cand.comps) =
          (normalizeIn safe_base).comps := congrArg AbsPath.comps heq
      rw [← hcomps, hid]
      exact commonPreSnd _ _
    · rw [if_neg heq]
      exact ⟨normalizeIn safe_base, rfl, rfl, ⟨[], List.append_nil _⟩⟩
  · rw [if_neg hd]
    exact ⟨normalizeIn safe_base, rfl, rfl, ⟨[], List.append_nil _⟩⟩

/-- C8: with `realpath` modelled as lexical normalization (a filesystem
without symlinks) and `commonpath` as the longest common component chain,
`InputValidator.secure_path_join` always returns a path on the resolved
safe base's drive whose components extend the resolved safe base — i.e. the
resolved safe output directory itself or a path inside it; every escaping
candidate falls back to the resolved safe base. -/
theorem secure_path_join_confined (safe_base base_path : InPath)
    (user_path : Option InPath) :
    ∃ c : AbsPath,
      secure_path_join (fun p => .ok (normalizeIn p)) commonPathFn
          safe_base base_path user_path = toIn c ∧
      c.drive = (normalizeIn safe_base).drive ∧
      (normalizeIn safe_base).comps <+: c.comps := by
  unfold secure_path_join
  by_cases hb : base_path.abs
  · rw [if_pos hb]
    cases user_path with
    | none => exact spjCheckConfined safe_base (normalizeIn base_path)
    | some up => exact spjCheckConfined safe_base _
  · rw [if_neg hb]
    cases user_path with
    | none => exact spjCheckConfined safe_base _
    | some up => exact spjCheckConfined safe_base _

/-- C4: every failure is caught and replaced by a default:
`ImageProcessor.save_image` returns `False` (instead of raising) when the
tensor conversion, the metadata embedding or the file write raises;
`SmartImageSaver.parse_metadata_json` returns `{}` for empty or malformed
JSON; `InputValidator.secure_path_join` returns the safe base directory
whichever path operation raises — the `realpath` of the safe base, of the
candidate, of the user-path join or of the common path (caught by the outer
`except`, returning the raw safe base), or `commonpath` (its `ValueError`
caught by the inner `except`, returning the resolved safe base). -/
theorem catch_and_fallback_defaults :
    (∀ conv embed write : Except Unit Unit,
      conv = .error () ∨ embed = .error () ∨ write = .error () →
      save_image conv embed write = false) ∧
    (∀ (s : String) (parse : String → Except Unit (List (String × String))),
      s = "" ∨ parse s = .error () → parse_metadata_json s parse = []) ∧
    (∀ (resolve : InPath → Except Unit AbsPath)
       (commonp : AbsPath → AbsPath → Except Unit AbsPath)
       (sb bp : InPath) (up : Option InPath),
      resolve sb = .error () →
      secure_path_join resolve commonp sb bp up = sb) ∧
    (∀ (resolve : InPath → Except Unit AbsPath)
       (commonp : AbsPath → AbsPath → Except Unit AbsPath)
       (sb bp : InPath) (up : Option InPath) (rsb : AbsPath),
      resolve sb = .ok rsb →
      (if bp.abs then resolve bp else resolve (pyJoin sb bp)) = .error () →
      secure_path_join resolve commonp sb bp up = sb) ∧
    (∀ (resolve : InPath → Except Unit AbsPath)
       (commonp : AbsPath → AbsPath → Except Unit AbsPath)
       (sb bp u : InPath) (rsb cand0 : AbsPath),
      resolve sb = .ok rsb →
      (if bp.abs then resolve bp else resolve (pyJoin sb bp)) = .ok cand0 →
      resolve (pyJoin (toIn cand0) u) = .error () →
      secure_path_join resolve commonp sb bp (some u) = sb) ∧
    (∀ (resolve : InPath → Except Unit AbsPath)
       (commonp : AbsPath → AbsPath → Except Unit AbsPath)
       (sb bp : InPath) (up : Option InPath) (rsb cand0 cand : AbsPath),
      resolve sb = .ok rsb →
      (if bp.abs then resolve bp else resolve (pyJoin sb bp)) = .ok cand0 →
      (match up with
       | none => Except.ok cand0
       | some u => resolve (pyJoin (toIn cand0) u)) = .ok cand →
      commonp rsb cand = .error () →
      secure_path_join resolve commonp sb bp up = toIn rsb) ∧
    (∀ (resolve : InPath → Except Unit AbsPath)
       (commonp : AbsPath → AbsPath → Except Unit AbsPath)
       (sb bp : InPath) (up : Option InPath) (rsb cand0 cand common : AbsPath),
      resolve sb = .ok rsb →
      (if bp.abs then resolve bp else resolve (pyJoin sb bp)) = .ok cand0 →
      (match up with
       | none => Except.ok cand0
       | some u => resolve (pyJoin (toIn cand0) u)) = .ok cand →
      commonp rsb cand = .ok common →
      resolve (toIn common) = .error () →
      secure_path_join resolve commonp sb bp up = sb) := by
  refine ⟨?_, ?_, ?_, ?_, ?_, ?_, ?_⟩
  · intro conv embed write hfail
    cases conv <;> cases embed <;> cases write <;> simp_all [save_image]
  · intro s parse hjson
    rcases hjson with h | h
    · simp [parse_metadata_json, h]
    · by_cases hs : s = ""
      · simp [parse_metadata_json, hs]
      · simp [parse_metadata_json, hs, h]
  · intro resolve commonp sb bp up h1
    unfold secure_path_join
    rw [h1]
  · intro resolve commonp sb bp up rsb h1 h2
    unfold secure_path_join
    rw [h1]
    dsimp only
    rw [h2]
  · intro resolve commonp sb bp u rsb cand0 h1 h2 h3
    unfold secure_path_join
    rw [h1]
    dsimp only
    rw [h2]
    dsimp only
    rw [h3]
  · intro resolve commonp sb bp up rsb cand0 cand h1 h2 h3 h4
    unfold secure_path_join
    rw [h1]
    dsimp only
    rw [h2]
    dsimp only
    rw [h3]
    dsimp only
    unfold spjCheck
    rw [h4]
  · intro resolve commonp sb bp up rsb cand0 cand common h1 h2 h3 h4 h5
    unfold secure_path_join
    rw [h1]
    dsimp only
    rw [h2]
    dsimp only
    rw [h3]
    dsimp only
    unfold spjCheck
    rw [h4]
    dsimp only
    rw [h5]

/-- C4 witness: a failing conversion; an empty JSON string; and one run per
raise site of `secure_path_join` — `realpath` failing on the safe base, on
the candidate, on the user-path join and on the common path, and
`commonpath` raising its `ValueError`. -/
theorem catch_and_fallback_defaults_witness :
    save_image (.error ()) (.ok ()) (.ok ()) = false ∧
    parse_metadata_json "" (fun _ => .error ()) = [] ∧
    secure_path_join (fun _ => .error ()) (fun _ _ => .error ())
      ⟨true, "", ["out"]⟩ ⟨false, "", ["x"]⟩ none = ⟨true, "", ["out"]⟩ ∧
    secure_path_join
      (fun p => if p = ⟨true, "", ["out"]⟩ then .ok ⟨"", ["out"]⟩ else .error ())
      (fun _ _ => .error ()) ⟨true, "", ["out"]⟩ ⟨true, "", ["x"]⟩ none =
      ⟨true, "", ["out"]⟩ ∧
    secure_path_join
      (fun p => if p.comps = ["bad"] then .error () else .ok ⟨p.drive, p.comps⟩)
      (fun _ _ => .error ()) ⟨true, "", ["out"]⟩ ⟨true, "", ["x"]⟩
      (some ⟨true, "", ["bad"]⟩) = ⟨true, "", ["out"]⟩ ∧
    secure_path_join (fun p => .ok ⟨p.drive, p.comps⟩) (fun _ _ => .error ())
      ⟨true, "", ["out"]⟩ ⟨true, "", ["x"]⟩ none = toIn ⟨"", ["out"]⟩ ∧
    secure_path_join
      (fun p => if p.comps = ["c"] then .error () else .ok ⟨p.drive, p.comps⟩)
      (fun _ _ => .ok ⟨"", ["c"]⟩) ⟨true, "", ["out"]⟩ ⟨true, "", ["x"]⟩ none =
      ⟨true, "", ["out"]⟩ :=
  ⟨catch_and_fallback_defaults.1 (.error ()) (.ok ()) (.ok ()) (Or.inl rfl),
   catch_and_fallback_defaults.2.1 "" (fun _ => .error ()) (Or.inl rfl),
   catch_and_fallback_defaults.2.2.1 (fun _ => .error ()) (fun _ _ => .error ())
     ⟨true, "", ["out"]⟩ ⟨false, "", ["x"]⟩ none rfl,
   catch_and_fallback_defaults.2.2.2.1
     (fun p => if p = ⟨true, "", ["out"]⟩ then .ok ⟨"", ["out"]⟩ else .error ())
     (fun _ _ => .error ()) ⟨true, "", ["out"]⟩ ⟨true, "", ["x"]⟩ none
     ⟨"", ["out"]⟩ rfl rfl,
   catch_and_fallback_defaults.2.2.2.2.1
     (fun p => if p.comps = ["bad"] then .error () else .ok ⟨p.drive, p.comps⟩)
     (fun _ _ => .error ()) ⟨true, "", ["out"]⟩ ⟨true, "", ["x"]⟩
     ⟨true, "", ["bad"]⟩ ⟨"", ["out"]⟩ ⟨"", ["x"]⟩ rfl rfl rfl,
   catch_and_fallback_defaults.2.2.2.2.2.1 (fun p => .ok ⟨p.drive, p.comps⟩)
     (fun _ _ => .error ()) ⟨true, "", ["out"]⟩ ⟨true, "", ["x"]⟩ none
     ⟨"", ["out"]⟩ ⟨"", ["x"]⟩ ⟨"", ["x"]⟩ rfl rfl rfl rfl,
   catch_and_fallback_defaults.2.2.2.2.2.2
     (fun p => if p.comps = ["c"] then .error () else .ok ⟨p.drive, p.comps⟩)
     (fun _ _ => .ok ⟨"", ["c"]⟩) ⟨true, "", ["out"]⟩ ⟨true, "", ["x"]⟩ none
     ⟨"", ["out"]⟩ ⟨"", ["x"]⟩ ⟨"", ["x"]⟩ ⟨"", ["c"]⟩ rfl rfl rfl rfl rfl⟩

/-- C5 counterexample: `PathManager.format_date` (and hence the claim's
"depend on no state other than their explicit arguments") reads the wall
clock, which is not an explicit argument of the Python function: the same
argument tuple produces different results at different clock readings. -/
theorem format_date_clock_dependence_cex :
    format_date "yyyy" false ⟨2024, 1, 1, 0, 0, 0, 0⟩ ≠
      format_date "yyyy" false ⟨2025, 1, 1, 0, 0, 0, 0⟩ := by decide

theorem dateMarkerTable_congr {d1 d2 : PyDateTime} (hy : d1.year = d2.year)
    (hmo : d1.month = d2.month) (hd : d1.day = d2.day) (hh : d1.hour = d2.hour)
    (hmi : d1.minute = d2.minute) (hs : d1.second = d2.second) :
    dateMarkerTable d1 = dateMarkerTable d2 := by
  simp [dateMarkerTable, hy, hmo, hd, hh, hmi, hs]

/-- C5 (amended): the text-processing functions are deterministic in their
explicit arguments together with the current clock reading, which they
consult only through its year/month/day/hour/minute/second fields
(`sanitize_filename` takes no clock at all, being a function of its two
arguments alone in this embedding). -/
theorem text_functions_deterministic_given_clock (fmt : String) (b : Bool)
    (t : String) (md : TemplateMeta) (d1 d2 : PyDateTime)
    (hy : d1.year = d2.year) (hmo : d1.month = d2.month) (hd : d1.day = d2.day)
    (hh : d1.hour = d2.hour) (hmi : d1.minute = d2.minute)
    (hs : d1.second = d2.second) :
    format_date fmt b d1 = format_date fmt b d2 ∧
    format_template t md d1 = format_template t md d2 := by
  have htab := dateMarkerTable_congr hy hmo hd hh hmi hs
  have happ : ∀ f, applyDateMarkers f d1 = applyDateMarkers f d2 := by
    intro f
    unfold applyDateMarkers
    rw [htab]
  have hstep : applyTokenCode md d1 = applyTokenCode md d2 := by
    funext res seg
    simp only [applyTokenCode, happ]
  constructor
  · unfold format_date
    rw [happ]
  · simp only [format_template, hstep]

/-- C5 witness: two clock readings equal up to seconds (differing in the
microsecond field) give identical outputs. -/
theorem text_functions_deterministic_given_clock_witness :
    format_date "yyyy-MM-dd" false ⟨2024, 3, 7, 15, 4, 9, 0⟩ =
      format_date "yyyy-MM-dd" false ⟨2024, 3, 7, 15, 4, 9, 999999⟩ ∧
    format_template "%date:hhmmss%/%seed%" ⟨some (.intV 3), none, none, none, none, none⟩
        ⟨2024, 3, 7, 15, 4, 9, 0⟩ =
      format_template "%date:hhmmss%/%seed%" ⟨some (.intV 3), none, none, none, none, none⟩
        ⟨2024, 3, 7, 15, 4, 9, 999999⟩ :=
  text_functions_deterministic_given_clock "yyyy-MM-dd" false "%date:hhmmss%/%seed%"
    ⟨some (.intV 3), none, none, none, none, none⟩
    ⟨2024, 3, 7, 15, 4, 9, 0⟩ ⟨2024, 3, 7, 15, 4, 9, 999999⟩
    rfl rfl rfl rfl rfl rfl

example :
    generate_unique_filename (fun s => s == "a.png" || s == "a_001.png")
      "a" ".png" false "ts" = "a_002.png" := by decide
example :
    generate_unique_filename (fun s => s == "a.png") "a" ".png" true "ts" =
      "a.png" := by decide
example :
    searchCounter (fun _ => true) "a" ".png" 1 3 = none := by decide

/-- When some counter in the next `fuel` values is free, the loop stops at
the first free one. -/
theorem searchCounter_found (ex : String → Bool) (base ext : String) :
    ∀ (fuel c : Nat),
      (∃ k, k < fuel ∧ ex (counterName base ext (c + k)) = false) →
      ∃ k, k < fuel ∧ ex (counterName base ext (c + k)) = false ∧
        (∀ j, j < k → ex (counterName base ext (c + j)) = true) ∧
        searchCounter ex base ext c fuel = some (counterName base ext (c + k)) := by
  intro fuel
  induction fuel with
  | zero =>
    rintro c ⟨k, hk, -⟩
    exact absurd hk (Nat.not_lt_zero k)
  | succ fuel ih =>
    rintro c ⟨k, hk, hex⟩
    by_cases h : ex (counterName base ext c) = true
    · have hk0 : k ≠ 0 := by
        rintro rfl
        rw [Nat.add_zero] at hex
        rw [h] at hex
        exact Bool.noConfusion hex
      have hshift : c + 1 + (k - 1) = c + k := by omega
      obtain ⟨k', hk', hex', hall, heq⟩ :=
        ih (c + 1) ⟨k - 1, by omega, by rw [hshift]; exact hex⟩
      refine ⟨k' + 1, by omega, ?_, ?_, ?_⟩
      · have hsh : c + (k' + 1) = c + 1 + k' := by omega
        rw [hsh]
        exact hex'
      · intro j hj
        cases j with
        | zero => simpa using h
        | succ j =>
          have hsh : c + (j + 1) = c + 1 + j := by omega
          rw [hsh]
          exact hall j (by omega)
      · have hsh : c + (k' + 1) = c + 1 + k' := by omega
        rw [hsh]
        simpa [searchCounter, h] using heq
    · refine ⟨0, by omega, by simpa using h, by omega, ?_⟩
      simp [searchCounter, h]

/-- C10: modelling the directory as the existence predicate `ex`:
with `overwrite = True` the function returns exactly
`base_filename + extension`; with `overwrite = False`, when the plain name
exists and some numbered variant in 1..9999 is free, it returns the variant
with the smallest free counter, which names no existing file. -/
theorem generate_unique_filename_least_counter (ex : String → Bool)
    (base ext ts : String) (hex : ex (base ++ ext) = true)
    (hfree : ∃ n, 1 ≤ n ∧ n ≤ 9999 ∧ ex (counterName base ext n) = false) :
    (generate_unique_filename ex base ext true ts = base ++ ext) ∧
    ∃ n, 1 ≤ n ∧ n ≤ 9999 ∧ ex (counterName base ext n) = false ∧
      (∀ m, 1 ≤ m → m < n → ex (counterName base ext m) = true) ∧
      generate_unique_filename ex base ext false ts = counterName base ext n := by
  constructor
  · unfold generate_unique_filename
    simp
  · obtain ⟨n, h1, h2, h3⟩ := hfree
    have hsh : 1 + (n - 1) = n := by omega
    obtain ⟨k, hk, hkex, hall, heq⟩ :=
      searchCounter_found ex base ext 9999 1 ⟨n - 1, by omega, by rw [hsh]; exact h3⟩
    refine ⟨1 + k, by omega, by omega, hkex, ?_, ?_⟩
    · intro m hm1 hmk
      have hm := hall (m - 1) (by omega)
      have hsh' : 1 + (m - 1) = m := by omega
      rwa [hsh'] at hm
    · unfold generate_unique_filename
      simp [hex, heq]

/-- C10 witness: a directory holding only `img.png`. -/
theorem generate_unique_filename_least_counter_witness :
    (generate_unique_filename (fun s => s == "img.png") "img" ".png" true "ts" =
      "img" ++ ".png") ∧
    ∃ n, 1 ≤ n ∧ n ≤ 9999 ∧
      (fun s => s == "img.png") (counterName "img" ".png" n) = false ∧
      (∀ m, 1 ≤ m → m < n →
        (fun s => s == "img.png") (counterName "img" ".png" m) = true) ∧
      generate_unique_filename (fun s => s == "img.png") "img" ".png" false "ts" =
        counterName "img" ".png" n :=
  generate_unique_filename_least_counter (fun s => s == "img.png") "img" ".png" "ts"
    (by decide) ⟨1, by decide, by decide, by decide⟩

/-- C9 counterexample: in `custom` mode, with a truthy `custom_path`, no
truthy `prompt_text`, and the metadata's `positive_prompt` key holding
`None` (the default shape `MetadataExtractor.extract_from_workflow`
produces), `PathManager.build_folder_structure` raises an uncaught
`TypeError` at `(None)[:50]` while building the `variables` dict, so it
does not return a list at all — refuting the universally quantified claim. -/
theorem build_folder_structure_raises_cex :
    build_folder_structure "custom" ⟨none, none, some none⟩
        ⟨none, none, none, none, none, none, none, some "a", none⟩
        ⟨2024, 3, 7, 15, 4, 9, 0⟩ = .error () ∧
    ∀ l : List String,
      build_folder_structure "custom" ⟨none, none, some none⟩
        ⟨none, none, none, none, none, none, none, some "a", none⟩
        ⟨2024, 3, 7, 15, 4, 9, 0⟩ ≠ .ok l := by
  refine ⟨rfl, ?_⟩
  intro l h
  rw [show build_folder_structure "custom" ⟨none, none, some none⟩
      ⟨none, none, none, none, none, none, none, some "a", none⟩
      ⟨2024, 3, 7, 15, 4, 9, 0⟩ = Except.error () from rfl] at h
  exact Except.noConfusion h

/-- The depth cut and falsy filter bound any returned list. -/
theorem bfsClipSpec (maxDepth : Nat) (e : Except Unit (List String)) :
    bfsClip maxDepth e = .error () ∨
    ∃ l, bfsClip maxDepth e = .ok l ∧ l.length ≤ maxDepth ∧ ∀ s ∈ l, s ≠ "" := by
  cases e with
  | error er =>
    cases er
    exact Or.inl rfl
  | ok segs =>
    refine Or.inr ⟨_, rfl, ?_, ?_⟩
    · calc ((segs.take maxDepth).filter (fun s => s != "")).length
          ≤ (segs.take maxDepth).length := List.length_filter_le _ _
        _ ≤ maxDepth := by
          simp only [List.length_take]
          exact min_le_left _ _
    · intro s hs
      have h := List.of_mem_filter hs
      simp only [bne_iff_ne, ne_eq] at h
      exact h

/-- Every branch of the segment builder except `custom` is `Except.ok`. -/
theorem bfsSegsOkOfNotCustom (structure_mode : String) (md : BfsMetadata)
    (ui : BfsUserInputs) (now : PyDateTime) (h : structure_mode ≠ "custom") :
    ∃ segs, bfsSegs structure_mode md ui now = .ok segs := by
  unfold bfsSegs
  split_ifs <;> exact ⟨_, rfl⟩

/-- C9 (corrected): `PathManager.build_folder_structure` raises instead of
returning only in `custom` mode (a `None`-valued `positive_prompt` with a
truthy `custom_path`); in every other case it returns a list, and whenever
it returns a list, the list contains at most
`user_inputs["max_folder_depth"]` (default 5) elements, every element a
non-empty string — in particular every non-`custom` mode always returns
such a list. -/
theorem build_folder_structure_bounded (structure_mode : String)
    (md : BfsMetadata) (ui : BfsUserInputs) (now : PyDateTime) :
    (build_folder_structure structure_mode md ui now = .error () ∨
      ∃ l, build_folder_structure structure_mode md ui now = .ok l ∧
        l.length ≤ ui.max_folder_depth.getD 5 ∧ ∀ s ∈ l, s ≠ "") ∧
    (structure_mode ≠ "custom" →
      ∃ l, build_folder_structure structure_mode md ui now = .ok l ∧
        l.length ≤ ui.max_folder_depth.getD 5 ∧ ∀ s ∈ l, s ≠ "") := by
  constructor
  · exact bfsClipSpec _ _
  · intro h
    obtain ⟨segs, hs⟩ := bfsSegsOkOfNotCustom structure_mode md ui now h
    have hor := bfsClipSpec (ui.max_folder_depth.getD 5)
      (bfsSegs structure_mode md ui now)
    rcases hor with herr | hok
    · rw [hs] at herr
      exact Except.noConfusion herr
    · exact hok

/-- C9 witness: the `date` mode returns a bounded list of non-empty
segments. -/
theorem build_folder_structure_bounded_witness :
    ∃ l, build_folder_structure "date" ⟨none, none, none⟩
        ⟨none, none, none, none, none, none, none, none, none⟩
        ⟨2024, 3, 7, 15, 4, 9, 0⟩ = .ok l ∧
      l.length ≤ 5 ∧ ∀ s ∈ l, s ≠ "" :=
  (build_folder_structure_bounded "date" ⟨none, none, none⟩
    ⟨none, none, none, none, none, none, none, none, none⟩
    ⟨2024, 3, 7, 15, 4, 9, 0⟩).2 (by decide)

end SmartSave
